import Mathlib

/-!
Verification of the SLO-rule storage module (`internal/prometheus/storage.go`
of the sloth repository): the two flavor renderers (`rawPrometheusYAML`,
`rawChronosphereYAML`), the disclaimer wrapper (`writeTopDisclaimer`) and the
orchestrator (`StoreSLOs`).

The external collaborators (the YAML marshaller `yaml.Marshal`, the output
sink `io.Writer`, and the version string `info.Version`) are modelled as
parameters.  The Go map used by the Chronosphere renderer is modelled as an
association list with insert-or-overwrite semantics; because Go does not
specify (and deliberately randomises) map iteration order, the iteration
order used when emitting the Collection documents is a further parameter.
-/

deriving instance DecidableEq for Except

namespace Sloth

/-- Modelled from the spec: a rule (the external library type `rulefmt.Rule`,
not part of this repository).  Per the spec's data model a Rule has a
record-or-alert name, an expression string, an optional duration, an optional
label mapping and an optional annotation mapping. -/
structure Rule where
  Record : String := ""
  Alert : String := ""
  Expr : String := ""
  For : String := ""
  Labels : List (String × String) := []
  Annotations : List (String × String) := []
deriving DecidableEq, Repr

/-- Modelled from the spec: the Objective (`SLO`) identity, defined elsewhere
in the repository; only the fields read by `storage.go` (`ID`, `Service`)
are modelled. -/
structure SLO where
  ID : String
  Service : String
deriving DecidableEq, Repr

/-- Modelled from the spec: the RuleBundle (`SLORules`), defined elsewhere in
the repository; three ordered sequences of rules, exactly the three fields
read by `storage.go`. -/
structure SLORules where
  SLIErrorRecRules : List Rule := []
  MetadataRecRules : List Rule := []
  AlertRules : List Rule := []
deriving DecidableEq, Repr

/-- `StorageSLO` from `storage.go`: one objective paired with its rules. -/
structure StorageSLO where
  SLO : Sloth.SLO
  Rules : SLORules
deriving DecidableEq, Repr

/-- `type OutputFlavor int` in Go: any machine integer is a legal value. -/
abbrev OutputFlavor := Int

/-- `PrometheusFlavor OutputFlavor = iota` (first constant, value 0). -/
def PrometheusFlavor : OutputFlavor := 0

/-- `ChronosphereFlavor` (second constant, value 1). -/
def ChronosphereFlavor : OutputFlavor := 1

/-- The distinct error outcomes of `StoreSLOs` and the renderers, tagged.
`noSLORules` is the `ErrNoSLORules` sentinel; the wrapped errors carry the
underlying collaborator message. -/
inductive StoreErr where
  /-- `fmt.Errorf("slo rules required")` -/
  | sloRulesRequired
  /-- the sentinel `ErrNoSLORules` (`"0 SLO Prometheus rules generated"`) -/
  | noSLORules
  /-- `fmt.Errorf("unsupported flavor")` -/
  | unsupportedFlavor
  /-- `fmt.Errorf("could not format collections: %w", err)` -/
  | formatCollections (msg : String)
  /-- `fmt.Errorf("could not format rules: %w", err)` -/
  | formatRules (msg : String)
  /-- `fmt.Errorf("could not write top disclaimer: %w", err)` -/
  | writeDisclaimer (msg : String)
deriving DecidableEq, Repr

/-! ## Prometheus flavor (`rawPrometheusYAML`) -/

/-- `ruleGroupYAMLv2`: `Interval` is `prommodel.Duration`, zero when absent. -/
structure ruleGroupYAMLv2 where
  Name : String
  Interval : Nat := 0
  Rules : List Rule
deriving DecidableEq, Repr

/-- The up-to-three groups one `StorageSLO` contributes, in the source's
order: the three `if len(...) > 0` blocks of `rawPrometheusYAML`. -/
def sloGroups (slo : StorageSLO) : List ruleGroupYAMLv2 :=
  (if slo.Rules.SLIErrorRecRules.length > 0 then
      [{ Name := "sloth-slo-sli-recordings-" ++ slo.SLO.ID
         Rules := slo.Rules.SLIErrorRecRules }]
    else [])
  ++ (if slo.Rules.MetadataRecRules.length > 0 then
      [{ Name := "sloth-slo-meta-recordings-" ++ slo.SLO.ID
         Rules := slo.Rules.MetadataRecRules }]
    else [])
  ++ (if slo.Rules.AlertRules.length > 0 then
      [{ Name := "sloth-slo-alerts-" ++ slo.SLO.ID
         Rules := slo.Rules.AlertRules }]
    else [])

/-- The `for _, slo := range slos` loop of `rawPrometheusYAML`, accumulating
`ruleGroups.Groups` by append. -/
def rawPrometheusGroups : List StorageSLO → List ruleGroupYAMLv2
  | [] => []
  | slo :: rest => sloGroups slo ++ rawPrometheusGroups rest

/-- `rawPrometheusYAML`, with `yaml.Marshal` as the parameter `marshal`
(success gives the encoded bytes, failure the error message).  Returns the
group count together with the encoded document. -/
def rawPrometheusYAML (marshal : List ruleGroupYAMLv2 → Except String String)
    (slos : List StorageSLO) : Except StoreErr (Nat × String) :=
  let groups := rawPrometheusGroups slos
  if groups.length = 0 then .error .noSLORules
  else
    match marshal groups with
    | .error e => .error (.formatRules e)
    | .ok rulesYaml => .ok (groups.length, rulesYaml)

/-! ## Chronosphere flavor (`rawChronosphereYAML`) -/

structure chronosphereCollection where
  Slug : String
  Name : String
  Description : String
  Team_slug : String := ""
  Notification_policy_slug : String := ""
deriving DecidableEq, Repr

structure chronosphereLabelPolicy where
  Add : List (String × String)
deriving DecidableEq, Repr

structure chronosphereRule where
  Slug : String
  Name : String
  Collection : String
  Interval_secs : Nat
  Metric_name : String
  Expr : String
  Label_policy : chronosphereLabelPolicy
deriving DecidableEq, Repr

structure chronosphereCollectionYAML where
  Api_version : String
  Kind : String
  Spec : chronosphereCollection
deriving DecidableEq, Repr

/-- `NewChronosphereCollectionYAML` followed by setting `.Spec`, as
`rawChronosphereYAML` uses it. -/
def NewChronosphereCollectionYAML (spec : chronosphereCollection) :
    chronosphereCollectionYAML :=
  { Api_version := "v1/config", Kind := "Collection", Spec := spec }

structure chronosphereRuleYAML where
  Api_version : String
  Kind : String
  Spec : chronosphereRule
deriving DecidableEq, Repr

/-- `NewChronosphereRuleYAML` followed by setting `.Spec`. -/
def NewChronosphereRuleYAML (spec : chronosphereRule) : chronosphereRuleYAML :=
  { Api_version := "v1/config", Kind := "RecordingRule", Spec := spec }

/-- `strings.Replace(s, ":", "_", -1)`: every colon becomes an underscore
(the pattern and its replacement are single characters, so the replacement
is a character map). -/
def colonToUnderscore (s : String) : String :=
  String.mk (s.data.map (fun c => if c = ':' then '_' else c))

/-- The collection value built at the top of the `for _, slo := range slos`
loop (`fmt.Sprintf("sloth-slo-%s", slo.SLO.Service)` for slug and name). -/
def collectionOf (slo : StorageSLO) : chronosphereCollection :=
  { Slug := "sloth-slo-" ++ slo.SLO.Service
    Name := "sloth-slo-" ++ slo.SLO.Service
    Description := "SLOs generated by Sloth" }

/-- The rule built in the `slo.Rules.SLIErrorRecRules` loop of
`rawChronosphereYAML` (lines 106-117). -/
def sliChronoRule (slo : StorageSLO) (rule : Rule) : chronosphereRule :=
  let ruleId := "sloth-slo-sli-recordings-" ++ slo.SLO.ID ++ "-"
      ++ colonToUnderscore rule.Record
  { Slug := ruleId
    Name := ruleId
    Collection := (collectionOf slo).Slug
    Interval_secs := 300
    Metric_name := rule.Record
    Expr := rule.Expr
    Label_policy := { Add := rule.Labels } }

/-- The rule built in the `slo.Rules.MetadataRecRules` loop of
`rawChronosphereYAML` (lines 122-133): textually identical to the SLI one,
including the `"sloth-slo-sli-recordings-"` prefix segment. -/
def metaChronoRule (slo : StorageSLO) (rule : Rule) : chronosphereRule :=
  let ruleId := "sloth-slo-sli-recordings-" ++ slo.SLO.ID ++ "-"
      ++ colonToUnderscore rule.Record
  { Slug := ruleId
    Name := ruleId
    Collection := (collectionOf slo).Slug
    Interval_secs := 300
    Metric_name := rule.Record
    Expr := rule.Expr
    Label_policy := { Add := rule.Labels } }

/-- Go map assignment `m[k] = v`: overwrite in place when the key is
present, append otherwise. -/
def mapInsert (m : List (String × chronosphereCollection)) (k : String)
    (v : chronosphereCollection) : List (String × chronosphereCollection) :=
  if k ∈ m.map Prod.fst then
    m.map (fun p => if p.1 = k then (k, v) else p)
  else m ++ [(k, v)]

/-- One iteration of the `for _, slo := range slos` loop of
`rawChronosphereYAML`: append the per-rule resources, then
`collections[collection.Slug] = collection`. -/
def chronoStep (acc : List (String × chronosphereCollection) × List chronosphereRule)
    (slo : StorageSLO) :
    List (String × chronosphereCollection) × List chronosphereRule :=
  let collection := collectionOf slo
  let rules := acc.2 ++ slo.Rules.SLIErrorRecRules.map (sliChronoRule slo)
      ++ slo.Rules.MetadataRecRules.map (metaChronoRule slo)
  (mapInsert acc.1 collection.Slug collection, rules)

/-- The whole loop: the `collections` map and the `rules` slice it builds. -/
def chronoFold (slos : List StorageSLO) :
    List (String × chronosphereCollection) × List chronosphereRule :=
  slos.foldl chronoStep ([], [])

/-- The `for _, collection := range collections` emission loop: wrap each
collection in its envelope, marshal it, append a `"---\n"` separator. -/
def marshalCollections (marshalC : chronosphereCollectionYAML → Except String String) :
    List chronosphereCollection → Except StoreErr String
  | [] => .ok ""
  | c :: rest =>
    match marshalC (NewChronosphereCollectionYAML c) with
    | .error e => .error (.formatCollections e)
    | .ok y =>
      match marshalCollections marshalC rest with
      | .error e => .error e
      | .ok ys => .ok (y ++ "---\n" ++ ys)

/-- The `for _, rule := range rules` emission loop. -/
def marshalRules (marshalR : chronosphereRuleYAML → Except String String) :
    List chronosphereRule → Except StoreErr String
  | [] => .ok ""
  | r :: rest =>
    match marshalR (NewChronosphereRuleYAML r) with
    | .error e => .error (.formatRules e)
    | .ok y =>
      match marshalRules marshalR rest with
      | .error e => .error e
      | .ok ys => .ok (y ++ "---\n" ++ ys)

/-- `rawChronosphereYAML`.  `marshalC`/`marshalR` stand for `yaml.Marshal`;
`iter` stands for Go's unspecified map iteration order: it turns the
association-list model of the `collections` map into the sequence of values
the `range` loop visits (honest callers pass a permutation of the stored
values). -/
def rawChronosphereYAML (marshalC : chronosphereCollectionYAML → Except String String)
    (marshalR : chronosphereRuleYAML → Except String String)
    (iter : List (String × chronosphereCollection) → List chronosphereCollection)
    (slos : List StorageSLO) : Except StoreErr (Nat × String) :=
  let acc := chronoFold slos
  if acc.1.length = 0 then .error .noSLORules
  else
    match marshalCollections marshalC (iter acc.1) with
    | .error e => .error e
    | .ok collYaml =>
      match marshalRules marshalR acc.2 with
      | .error e => .error e
      | .ok rulesYaml => .ok (acc.1.length, collYaml ++ rulesYaml)

/-! ## Disclaimer and orchestrator -/

/-- The `disclaimer` constant: a Go raw-string literal beginning with a
newline, then the `---` document marker, the generated-by banner with
`info.Version` interpolated, the DO NOT EDIT notice, and a blank line.
`info.Version` lives outside this module and is the `version` parameter. -/
def disclaimer (version : String) : String :=
  "\n---\n# Code generated by Sloth (" ++ version
    ++ "): https://github.com/slok/sloth.\n# DO NOT EDIT.\n\n"

/-- `writeTopDisclaimer`: pure byte concatenation, no re-parsing. -/
def writeTopDisclaimer (version : String) (bs : String) : String :=
  disclaimer version ++ bs

/-- The flavor dispatch inside `StoreSLOs` (the `if/else if/else` chain on
lines 66-82), isolated so that "rendering succeeded" is a statable event. -/
def renderFlavor (marshalG : List ruleGroupYAMLv2 → Except String String)
    (marshalC : chronosphereCollectionYAML → Except String String)
    (marshalR : chronosphereRuleYAML → Except String String)
    (iter : List (String × chronosphereCollection) → List chronosphereCollection)
    (slos : List StorageSLO) (flavor : OutputFlavor) :
    Except StoreErr (Nat × String) :=
  if flavor = PrometheusFlavor then rawPrometheusYAML marshalG slos
  else if flavor = ChronosphereFlavor then
    rawChronosphereYAML marshalC marshalR iter slos
  else .error .unsupportedFlavor

/-- `StoreSLOs`.  `sink` models `i.writer.Write` (it may fail with a
message).  The second component of the result is the list of byte buffers
passed to the sink's write, in order, whether or not the write succeeded;
the source performs at most the single write on line 85. -/
def StoreSLOs (marshalG : List ruleGroupYAMLv2 → Except String String)
    (marshalC : chronosphereCollectionYAML → Except String String)
    (marshalR : chronosphereRuleYAML → Except String String)
    (iter : List (String × chronosphereCollection) → List chronosphereCollection)
    (sink : String → Except String Unit) (version : String)
    (slos : List StorageSLO) (flavor : OutputFlavor) :
    Except StoreErr Unit × List String :=
  if slos.length = 0 then (.error .sloRulesRequired, [])
  else
    match renderFlavor marshalG marshalC marshalR iter slos flavor with
    | .error e => (.error e, [])
    | .ok (_, rulesYaml) =>
      let out := writeTopDisclaimer version rulesYaml
      match sink out with
      | .error e => (.error (.writeDisclaimer e), [out])
      | .ok _ => (.ok (), [out])

/-! ## Statement-side helpers and concrete stand-ins -/

/-- The number of non-empty (objective, rule-kind) sequences of one unit. -/
def nonEmptyKindCount (slo : StorageSLO) : Nat :=
  (if slo.Rules.SLIErrorRecRules = [] then 0 else 1)
    + (if slo.Rules.MetadataRecRules = [] then 0 else 1)
    + (if slo.Rules.AlertRules = [] then 0 else 1)

/-- The (name, rules) entries the spec says one unit contributes: one entry
per non-empty sequence, none for an empty one, in the order SLI recordings,
metadata recordings, alerts, under the three fixed names. -/
def expectedGroupEntries (slo : StorageSLO) : List (String × List Rule) :=
  (if slo.Rules.SLIErrorRecRules = [] then [] else
    [("sloth-slo-sli-recordings-" ++ slo.SLO.ID, slo.Rules.SLIErrorRecRules)])
  ++ (if slo.Rules.MetadataRecRules = [] then [] else
    [("sloth-slo-meta-recordings-" ++ slo.SLO.ID, slo.Rules.MetadataRecRules)])
  ++ (if slo.Rules.AlertRules = [] then [] else
    [("sloth-slo-alerts-" ++ slo.SLO.ID, slo.Rules.AlertRules)])

/-- The spec's worked example: one SLI-error rule named
`slo:sli_error:checkout`. -/
def demoRule : Rule :=
  { Record := "slo:sli_error:checkout"
    Expr := "rate(err[5m])"
    Labels := [("sloth_service", "checkout")] }

/-- Objective `svc01` of service `checkout` carrying only `demoRule`. -/
def demoSLO : StorageSLO :=
  { SLO := { ID := "svc01", Service := "checkout" }
    Rules := { SLIErrorRecRules := [demoRule] } }

/-- A concrete stand-in for `yaml.Marshal` on the rule-group document. -/
def stubMarshalG : List ruleGroupYAMLv2 → Except String String :=
  fun gs => Except.ok ("groups:" ++ toString gs.length ++ "\n")

/-- A concrete stand-in for `yaml.Marshal` on a collection envelope; like the
real marshaller, its output shows the collection's slug. -/
def stubMarshalC : chronosphereCollectionYAML → Except String String :=
  fun e => Except.ok (e.Spec.Slug ++ "\n")

/-- A concrete stand-in for `yaml.Marshal` on a rule envelope. -/
def stubMarshalR : chronosphereRuleYAML → Except String String :=
  fun e => Except.ok (e.Spec.Slug ++ "\n")

/-- A sink whose write always succeeds. -/
def okSink : String → Except String Unit := fun _ => Except.ok ()

/-- Map iteration in insertion order. -/
def valuesIter : List (String × chronosphereCollection) → List chronosphereCollection :=
  fun l => l.map Prod.snd

/-- Map iteration in reverse insertion order: Go's randomised map iteration
may visit the entries this way just as well. -/
def reverseIter : List (String × chronosphereCollection) → List chronosphereCollection :=
  fun l => (l.map Prod.snd).reverse

/-! ## C1: rule-group flavor structure -/

theorem sloGroups_entries (slo : StorageSLO) :
    (sloGroups slo).map (fun g => (g.Name, g.Rules)) = expectedGroupEntries slo := by
  unfold sloGroups expectedGroupEntries
  by_cases h1 : slo.Rules.SLIErrorRecRules = [] <;>
    by_cases h2 : slo.Rules.MetadataRecRules = [] <;>
      by_cases h3 : slo.Rules.AlertRules = [] <;>
        simp [h1, h2, h3, List.length_pos]

theorem rawPrometheusGroups_entries (slos : List StorageSLO) :
    (rawPrometheusGroups slos).map (fun g => (g.Name, g.Rules))
      = (slos.map expectedGroupEntries).flatten := by
  induction slos with
  | nil => rfl
  | cons slo rest ih => simp [rawPrometheusGroups, sloGroups_entries slo, ih]

theorem sloGroups_length (slo : StorageSLO) :
    (sloGroups slo).length = nonEmptyKindCount slo := by
  unfold sloGroups nonEmptyKindCount
  by_cases h1 : slo.Rules.SLIErrorRecRules = [] <;>
    by_cases h2 : slo.Rules.MetadataRecRules = [] <;>
      by_cases h3 : slo.Rules.AlertRules = [] <;>
        simp [h1, h2, h3, List.length_pos]

theorem rawPrometheusGroups_length (slos : List StorageSLO) :
    (rawPrometheusGroups slos).length = (slos.map nonEmptyKindCount).sum := by
  induction slos with
  | nil => rfl
  | cons slo rest ih => simp [rawPrometheusGroups, sloGroups_length slo, ih]

/-- C1: the rule-group renderer emits, per StorageUnit, exactly one group
per non-empty rule sequence and none for an empty one, named
`sloth-slo-sli-recordings-<ID>`, `sloth-slo-meta-recordings-<ID>`,
`sloth-slo-alerts-<ID>`, in the fixed order SLI recordings, metadata
recordings, alerts, preserving input order across units and passing the rule
sequences through unchanged; the groups-list length and the returned unit
count both equal the number of non-empty (objective, kind) sequences. -/
theorem ruleGroup_flavor_structure (slos : List StorageSLO) :
    ((rawPrometheusGroups slos).map (fun g => (g.Name, g.Rules))
        = (slos.map expectedGroupEntries).flatten)
    ∧ (rawPrometheusGroups slos).length = (slos.map nonEmptyKindCount).sum
    ∧ (∀ marshal n y, rawPrometheusYAML marshal slos = Except.ok (n, y) →
        n = (slos.map nonEmptyKindCount).sum) := by
  refine ⟨rawPrometheusGroups_entries slos, rawPrometheusGroups_length slos, ?_⟩
  intro marshal n y h
  unfold rawPrometheusYAML at h
  by_cases hz : (rawPrometheusGroups slos).length = 0
  · simp [hz] at h
  · simp only [hz, if_neg, if_false] at h
    cases hm : marshal (rawPrometheusGroups slos) with
    | error e => rw [hm] at h; simp at h
    | ok y2 =>
      rw [hm] at h
      simp at h
      rw [← h.1]
      exact rawPrometheusGroups_length slos

/-! ## C10: the empty-input check precedes the flavor check -/

/-- C10: for an empty StorageUnit sequence `StoreSLOs` returns the
input-validation error for every flavor value, including out-of-enumeration
ones, and never the unsupported-flavor error; the sink is not written. -/
theorem storeSLOs_empty_input (marshalG : List ruleGroupYAMLv2 → Except String String)
    (marshalC : chronosphereCollectionYAML → Except String String)
    (marshalR : chronosphereRuleYAML → Except String String)
    (iter : List (String × chronosphereCollection) → List chronosphereCollection)
    (sink : String → Except String Unit) (version : String) (flavor : OutputFlavor) :
    StoreSLOs marshalG marshalC marshalR iter sink version [] flavor
      = (Except.error StoreErr.sloRulesRequired, []) := rfl

/-! ## C8: unsupported flavor fails before rendering, without writing -/

/-- C8: for every flavor value outside {PrometheusFlavor, ChronosphereFlavor}
and every non-empty input, `StoreSLOs` returns the unsupported-flavor error
and the sink is never written. -/
theorem storeSLOs_unsupported_flavor
    (marshalG : List ruleGroupYAMLv2 → Except String String)
    (marshalC : chronosphereCollectionYAML → Except String String)
    (marshalR : chronosphereRuleYAML → Except String String)
    (iter : List (String × chronosphereCollection) → List chronosphereCollection)
    (sink : String → Except String Unit) (version : String)
    (slos : List StorageSLO) (flavor : OutputFlavor)
    (hne : slos ≠ []) (h0 : flavor ≠ PrometheusFlavor)
    (h1 : flavor ≠ ChronosphereFlavor) :
    StoreSLOs marshalG marshalC marshalR iter sink version slos flavor
      = (Except.error StoreErr.unsupportedFlavor, []) := by
  unfold StoreSLOs renderFlavor
  rw [if_neg (by simpa using hne), if_neg h0, if_neg h1]

/-- Witness for C8 at flavor value 2 and the demo input. -/
theorem storeSLOs_unsupported_flavor_witness :
    StoreSLOs stubMarshalG stubMarshalC stubMarshalR valuesIter okSink "dev"
      [demoSLO] 2 = (Except.error StoreErr.unsupportedFlavor, []) :=
  storeSLOs_unsupported_flavor stubMarshalG stubMarshalC stubMarshalR valuesIter
    okSink "dev" [demoSLO] 2 (by decide) (by decide) (by decide)

/-! ## C5: identical id prefix for SLI and metadata platform rules -/

/-- C5: in the platform-resource flavor an SLI-error recording rule and a
metadata recording rule whose record names agree after colon-to-underscore
substitution get identical slug and name identifiers for any objective,
because both kinds build their id from the same literal prefix segment. -/
theorem chronosphere_id_prefix_collision (slo : StorageSLO) (r1 r2 : Rule)
    (h : colonToUnderscore r1.Record = colonToUnderscore r2.Record) :
    (sliChronoRule slo r1).Slug = (metaChronoRule slo r2).Slug
      ∧ (sliChronoRule slo r1).Name = (metaChronoRule slo r2).Name := by
  constructor <;> simp [sliChronoRule, metaChronoRule, h]

/-- Witness for C5: records `a:b` (SLI) and `a_b` (metadata) differ but
collide after substitution. -/
theorem chronosphere_id_prefix_collision_witness :
    ((sliChronoRule demoSLO { Record := "a:b" }).Slug
        = (metaChronoRule demoSLO { Record := "a_b" }).Slug)
      ∧ ((sliChronoRule demoSLO { Record := "a:b" }).Name
        = (metaChronoRule demoSLO { Record := "a_b" }).Name) :=
  chronosphere_id_prefix_collision demoSLO { Record := "a:b" }
    { Record := "a_b" } (by decide)

/-! ## C3: platform-resource rule translation -/

/-- The PlatformRule resources one unit contributes: one per SLI-error
recording rule, then one per metadata recording rule; alert rules none. -/
def expectedChronoRules (slo : StorageSLO) : List chronosphereRule :=
  slo.Rules.SLIErrorRecRules.map (sliChronoRule slo)
    ++ slo.Rules.MetadataRecRules.map (metaChronoRule slo)

/-- The same unit with its alert rules removed. -/
def stripAlerts (slo : StorageSLO) : StorageSLO :=
  { slo with Rules := { slo.Rules with AlertRules := [] } }

theorem chronoFold_rules_aux (slos : List StorageSLO)
    (acc : List (String × chronosphereCollection) × List chronosphereRule) :
    (slos.foldl chronoStep acc).2
      = acc.2 ++ (slos.map expectedChronoRules).flatten := by
  induction slos generalizing acc with
  | nil => simp
  | cons slo rest ih =>
      simp [List.foldl_cons, ih, chronoStep, expectedChronoRules,
        List.append_assoc]

theorem chronoFold_rules (slos : List StorageSLO) :
    (chronoFold slos).2 = (slos.map expectedChronoRules).flatten := by
  simpa using chronoFold_rules_aux slos ([], [])

theorem sliChronoRule_stripAlerts (slo : StorageSLO) :
    sliChronoRule (stripAlerts slo) = sliChronoRule slo := by
  funext rule
  simp [sliChronoRule, stripAlerts, collectionOf]

theorem metaChronoRule_stripAlerts (slo : StorageSLO) :
    metaChronoRule (stripAlerts slo) = metaChronoRule slo := by
  funext rule
  simp [metaChronoRule, stripAlerts, collectionOf]

theorem chronoStep_stripAlerts
    (acc : List (String × chronosphereCollection) × List chronosphereRule)
    (slo : StorageSLO) : chronoStep acc (stripAlerts slo) = chronoStep acc slo := rfl

theorem chronoFold_stripAlerts (slos : List StorageSLO) :
    chronoFold (slos.map stripAlerts) = chronoFold slos := by
  unfold chronoFold
  generalize ([], []) = acc
  induction slos generalizing acc with
  | nil => rfl
  | cons slo rest ih => simp [List.foldl_cons, chronoStep_stripAlerts, ih]

theorem rawPrometheusGroups_singleton (slo : StorageSLO) :
    rawPrometheusGroups [slo] = sloGroups slo := by
  simp [rawPrometheusGroups]

/-- C3: the platform-resource flavor translates every SLI-error recording
rule and every metadata recording rule into exactly one PlatformRule — slug
and name are the fixed prefix plus objective ID plus the colon-to-underscore
image of the record name, the evaluation interval is the constant 300
seconds, the metric name is the record name unmodified, the expression is
copied verbatim and the label-add policy is the rule's label mapping — while
alert rules produce no PlatformRule at all (the output is unchanged when
alert rules are removed; an alert-only unit yields zero PlatformRules yet a
non-empty rule-group-flavor output). -/
theorem chronosphere_rule_translation (slos : List StorageSLO) :
    (chronoFold slos).2 = (slos.map expectedChronoRules).flatten
    ∧ (∀ slo rule, sliChronoRule slo rule =
        { Slug := "sloth-slo-sli-recordings-" ++ slo.SLO.ID ++ "-"
            ++ colonToUnderscore rule.Record
          Name := "sloth-slo-sli-recordings-" ++ slo.SLO.ID ++ "-"
            ++ colonToUnderscore rule.Record
          Collection := "sloth-slo-" ++ slo.SLO.Service
          Interval_secs := 300
          Metric_name := rule.Record
          Expr := rule.Expr
          Label_policy := { Add := rule.Labels } })
    ∧ (∀ slo rule, metaChronoRule slo rule = sliChronoRule slo rule)
    ∧ (chronoFold (slos.map stripAlerts)).2 = (chronoFold slos).2
    ∧ (∀ slo, slo.Rules.SLIErrorRecRules = [] →
        slo.Rules.MetadataRecRules = [] → (chronoFold [slo]).2 = [])
    ∧ (∀ slo, slo.Rules.AlertRules ≠ [] → rawPrometheusGroups [slo] ≠ []) := by
  refine ⟨chronoFold_rules slos, ?_, ?_, ?_, ?_, ?_⟩
  · intro slo rule; rfl
  · intro slo rule; rfl
  · rw [chronoFold_stripAlerts]
  · intro slo h1 h2
    rw [chronoFold_rules]
    simp [expectedChronoRules, h1, h2]
  · intro slo h hc
    have hl := sloGroups_length slo
    rw [← rawPrometheusGroups_singleton, hc] at hl
    unfold nonEmptyKindCount at hl
    rw [if_neg h] at hl
    simp at hl

/-! ## C6: one Collection per distinct service name -/

/-- The collection key one unit contributes. -/
def slugOf (slo : StorageSLO) : String := "sloth-slo-" ++ slo.SLO.Service

theorem mapInsert_keys (m : List (String × chronosphereCollection)) (k : String)
    (v : chronosphereCollection) :
    (mapInsert m k v).map Prod.fst
      = if k ∈ m.map Prod.fst then m.map Prod.fst else m.map Prod.fst ++ [k] := by
  by_cases h : k ∈ m.map Prod.fst <;> simp [mapInsert, h, List.map_map]
  intro a b _
  by_cases hp : a = k <;> simp [hp]

theorem mapInsert_mem_keys (m : List (String × chronosphereCollection))
    (k : String) (v : chronosphereCollection) (q : String) :
    q ∈ (mapInsert m k v).map Prod.fst ↔ q ∈ m.map Prod.fst ∨ q = k := by
  rw [mapInsert_keys]
  by_cases h : k ∈ m.map Prod.fst
  · rw [if_pos h]
    constructor
    · exact Or.inl
    · rintro (h1 | rfl)
      · exact h1
      · exact h
  · rw [if_neg h]
    simp

theorem mapInsert_keys_nodup (m : List (String × chronosphereCollection))
    (k : String) (v : chronosphereCollection) (h : (m.map Prod.fst).Nodup) :
    ((mapInsert m k v).map Prod.fst).Nodup := by
  rw [mapInsert_keys]
  by_cases hk : k ∈ m.map Prod.fst
  · simpa [hk] using h
  · simp [hk, List.nodup_append, h]

theorem mapInsert_mem (m : List (String × chronosphereCollection)) (k : String)
    (v : chronosphereCollection) (p : String × chronosphereCollection)
    (hp : p ∈ mapInsert m k v) : p ∈ m ∨ p = (k, v) := by
  unfold mapInsert at hp
  by_cases h : k ∈ m.map Prod.fst
  · rw [if_pos h] at hp
    obtain ⟨q, hq, hqe⟩ := List.mem_map.mp hp
    by_cases hqk : q.1 = k
    · right; rw [← hqe]; simp [hqk]
    · left; rw [← hqe]; simp [hqk]; exact hq
  · rw [if_neg h] at hp
    rcases List.mem_append.mp hp with h1 | h2
    · exact Or.inl h1
    · right; simpa using h2

theorem chronoFold_mem_keys_aux (slos : List StorageSLO)
    (acc : List (String × chronosphereCollection) × List chronosphereRule)
    (k : String) :
    k ∈ (slos.foldl chronoStep acc).1.map Prod.fst
      ↔ k ∈ acc.1.map Prod.fst ∨ ∃ slo ∈ slos, k = slugOf slo := by
  induction slos generalizing acc with
  | nil => simp
  | cons slo rest ih =>
    rw [List.foldl_cons, ih]
    have hstep : (chronoStep acc slo).1 = mapInsert acc.1 (slugOf slo) (collectionOf slo) := rfl
    rw [hstep, mapInsert_mem_keys]
    constructor
    · rintro ((h1 | rfl) | ⟨s, hs, rfl⟩)
      · exact Or.inl h1
      · exact Or.inr ⟨slo, by simp⟩
      · exact Or.inr ⟨s, by simp [hs]⟩
    · rintro (h1 | ⟨s, hs, rfl⟩)
      · exact Or.inl (Or.inl h1)
      · rcases List.mem_cons.mp hs with rfl | hs2
        · exact Or.inl (Or.inr rfl)
        · exact Or.inr ⟨s, hs2, rfl⟩

theorem chronoFold_keys_nodup_aux (slos : List StorageSLO)
    (acc : List (String × chronosphereCollection) × List chronosphereRule)
    (h : (acc.1.map Prod.fst).Nodup) :
    ((slos.foldl chronoStep acc).1.map Prod.fst).Nodup := by
  induction slos generalizing acc with
  | nil => exact h
  | cons slo rest ih =>
    rw [List.foldl_cons]
    exact ih _ (mapInsert_keys_nodup _ _ _ h)

theorem chronoFold_collections_mem_aux (slos : List StorageSLO)
    (acc : List (String × chronosphereCollection) × List chronosphereRule)
    (p : String × chronosphereCollection)
    (hp : p ∈ (slos.foldl chronoStep acc).1) :
    p ∈ acc.1 ∨ ∃ slo ∈ slos, p = (slugOf slo, collectionOf slo) := by
  induction slos generalizing acc with
  | nil => exact Or.inl hp
  | cons slo rest ih =>
    rw [List.foldl_cons] at hp
    rcases ih _ hp with h1 | ⟨s, hs, rfl⟩
    · rcases mapInsert_mem _ _ _ _ h1 with h2 | rfl
      · exact Or.inl h2
      · exact Or.inr ⟨slo, by simp [slugOf, collectionOf]⟩
    · exact Or.inr ⟨s, by simp [hs]⟩

theorem string_append_left_injective (p : String) :
    Function.Injective (fun s => p ++ s) := by
  intro a b h
  have hd : p.data ++ a.data = p.data ++ b.data := by
    have := congrArg String.data h
    simpa using this
  cases a; cases b
  simp only [List.append_cancel_left_eq] at hd
  rw [hd]

/-- C6: in the platform-resource flavor the output carries exactly one
Collection per distinct service name — the deduplication map's keys are
duplicate-free, a key is present exactly when some input unit has the
corresponding service (key = `"sloth-slo-"` plus service name), every stored
entry is the collection derived from some input unit, and the number of
collections (hence of Collection documents and the returned unit count)
equals the number of distinct service names, however many units share a
service and in whatever order they appear. -/
theorem chronosphere_one_collection_per_service (slos : List StorageSLO) :
    ((chronoFold slos).1.map Prod.fst).Nodup
    ∧ (∀ k, k ∈ (chronoFold slos).1.map Prod.fst
        ↔ ∃ slo ∈ slos, k = "sloth-slo-" ++ slo.SLO.Service)
    ∧ (∀ p ∈ (chronoFold slos).1,
        ∃ slo ∈ slos, p = ("sloth-slo-" ++ slo.SLO.Service, collectionOf slo))
    ∧ (chronoFold slos).1.length
        = (slos.map (fun slo => slo.SLO.Service)).toFinset.card := by
  have hnodup : ((chronoFold slos).1.map Prod.fst).Nodup :=
    chronoFold_keys_nodup_aux slos ([], []) (by simp)
  have hmem : ∀ k, k ∈ (chronoFold slos).1.map Prod.fst
      ↔ ∃ slo ∈ slos, k = slugOf slo := by
    intro k
    have := chronoFold_mem_keys_aux slos ([], []) k
    simpa using this
  refine ⟨hnodup, hmem, ?_, ?_⟩
  · intro p hp
    have := chronoFold_collections_mem_aux slos ([], []) p hp
    simpa [slugOf] using this
  · have hlen : (chronoFold slos).1.length
        = ((chronoFold slos).1.map Prod.fst).length := by
      rw [List.length_map]
    rw [hlen, ← List.toFinset_card_of_nodup hnodup]
    have hset : ((chronoFold slos).1.map Prod.fst).toFinset
        = (slos.map (fun slo => slo.SLO.Service)).toFinset.image
            (fun s => "sloth-slo-" ++ s) := by
      ext k
      simp only [List.mem_toFinset, hmem, Finset.mem_image, List.mem_map]
      constructor
      · rintro ⟨slo, hslo, rfl⟩
        exact ⟨slo.SLO.Service, ⟨slo, hslo, rfl⟩, rfl⟩
      · rintro ⟨s, ⟨slo, hslo, rfl⟩, rfl⟩
        exact ⟨slo, hslo, rfl⟩
    rw [hset,
      Finset.card_image_of_injective _ (string_append_left_injective "sloth-slo-")]

/-! ## C7: write discipline of the orchestrator -/

/-- C7: every invocation of `StoreSLOs` performs at most one sink write;
a write happens only when rendering fully succeeded (and then it is the
single write of the disclaimer-wrapped payload), and every rendering-stage
error — input validation, unsupported flavor, no rules, encoding — leaves
the sink untouched. -/
theorem storeSLOs_write_discipline
    (marshalG : List ruleGroupYAMLv2 → Except String String)
    (marshalC : chronosphereCollectionYAML → Except String String)
    (marshalR : chronosphereRuleYAML → Except String String)
    (iter : List (String × chronosphereCollection) → List chronosphereCollection)
    (sink : String → Except String Unit) (version : String)
    (slos : List StorageSLO) (flavor : OutputFlavor) :
    (StoreSLOs marshalG marshalC marshalR iter sink version slos flavor).2.length ≤ 1
    ∧ ((StoreSLOs marshalG marshalC marshalR iter sink version slos flavor).2 ≠ [] →
        slos ≠ [] ∧ ∃ n y,
          renderFlavor marshalG marshalC marshalR iter slos flavor = Except.ok (n, y)
          ∧ (StoreSLOs marshalG marshalC marshalR iter sink version slos flavor).2
              = [writeTopDisclaimer version y])
    ∧ (∀ e, renderFlavor marshalG marshalC marshalR iter slos flavor = Except.error e →
        (StoreSLOs marshalG marshalC marshalR iter sink version slos flavor).2 = []) := by
  unfold StoreSLOs
  by_cases h0 : slos.length = 0
  · simp [h0]
  · rw [if_neg h0]
    have hne : slos ≠ [] := by simpa [List.length_eq_zero] using h0
    cases hr : renderFlavor marshalG marshalC marshalR iter slos flavor with
    | error e => simp [hr]
    | ok p =>
      obtain ⟨n, y⟩ := p
      cases hs : sink (writeTopDisclaimer version y) with
      | error e =>
        refine ⟨by simp [hs], fun _ => ⟨hne, n, y, rfl, by simp [hs]⟩, by simp⟩
      | ok u =>
        refine ⟨by simp [hs], fun _ => ⟨hne, n, y, rfl, by simp [hs]⟩, by simp⟩

/-! ## C2: all rule sequences empty -/

/-- A unit whose three rule sequences are all empty. -/
def emptyRulesSLO : StorageSLO :=
  { SLO := { ID := "svc01", Service := "checkout" }, Rules := {} }

/-- C2 counterexample: on the non-empty input `[emptyRulesSLO]`, every rule
sequence of which is empty, the Chronosphere flavor does not return the
no-rules sentinel and does invoke the sink's write (the claim asserts the
sentinel is returned and the write never invoked under both flavors). -/
theorem chronosphere_empty_rules_still_writes :
    ((StoreSLOs stubMarshalG stubMarshalC stubMarshalR valuesIter okSink "dev"
        [emptyRulesSLO] ChronosphereFlavor).1 ≠ Except.error StoreErr.noSLORules)
    ∧ (StoreSLOs stubMarshalG stubMarshalC stubMarshalR valuesIter okSink "dev"
        [emptyRulesSLO] ChronosphereFlavor).2 ≠ [] := by
  exact ⟨by decide, by decide⟩

theorem marshalCollections_error_shape
    (mC : chronosphereCollectionYAML → Except String String)
    (l : List chronosphereCollection) :
    ∀ e, marshalCollections mC l = Except.error e →
      ∃ msg, e = StoreErr.formatCollections msg := by
  induction l with
  | nil => intro e h; simp [marshalCollections] at h
  | cons c rest ih =>
    intro e h
    unfold marshalCollections at h
    cases hm : mC (NewChronosphereCollectionYAML c) with
    | error e2 =>
      rw [hm] at h
      simp at h
      exact ⟨e2, h.symm⟩
    | ok y =>
      rw [hm] at h
      cases hr : marshalCollections mC rest with
      | error e3 =>
        rw [hr] at h
        simp at h
        rw [← h]
        exact ih e3 hr
      | ok ys => rw [hr] at h; simp at h

theorem marshalRules_error_shape
    (mR : chronosphereRuleYAML → Except String String)
    (l : List chronosphereRule) :
    ∀ e, marshalRules mR l = Except.error e →
      ∃ msg, e = StoreErr.formatRules msg := by
  induction l with
  | nil => intro e h; simp [marshalRules] at h
  | cons c rest ih =>
    intro e h
    unfold marshalRules at h
    cases hm : mR (NewChronosphereRuleYAML c) with
    | error e2 =>
      rw [hm] at h
      simp at h
      exact ⟨e2, h.symm⟩
    | ok y =>
      rw [hm] at h
      cases hr : marshalRules mR rest with
      | error e3 =>
        rw [hr] at h
        simp at h
        rw [← h]
        exact ih e3 hr
      | ok ys => rw [hr] at h; simp at h

theorem chronoFold_collections_ne_nil (slos : List StorageSLO) (h : slos ≠ []) :
    (chronoFold slos).1 ≠ [] := by
  cases slos with
  | nil => exact absurd rfl h
  | cons slo rest =>
    intro hc
    have hmem : slugOf slo ∈ ((slo :: rest).foldl chronoStep ([], [])).1.map Prod.fst :=
      (chronoFold_mem_keys_aux (slo :: rest) ([], []) (slugOf slo)).mpr
        (Or.inr ⟨slo, List.mem_cons_self slo rest, rfl⟩)
    have hc2 : ((slo :: rest).foldl chronoStep ([], [])).1 = [] := hc
    rw [hc2] at hmem
    simp at hmem

theorem rawChronosphereYAML_no_sentinel
    (mC : chronosphereCollectionYAML → Except String String)
    (mR : chronosphereRuleYAML → Except String String)
    (iter : List (String × chronosphereCollection) → List chronosphereCollection)
    (slos : List StorageSLO) (h : slos ≠ []) (e : StoreErr)
    (he : rawChronosphereYAML mC mR iter slos = Except.error e) :
    e ≠ StoreErr.noSLORules := by
  have hlen : ¬ (chronoFold slos).1.length = 0 := by
    simpa [List.length_eq_zero] using chronoFold_collections_ne_nil slos h
  simp only [rawChronosphereYAML] at he
  rw [if_neg hlen] at he
  cases hmc : marshalCollections mC (iter (chronoFold slos).1) with
  | error e2 =>
    rw [hmc] at he
    simp at he
    obtain ⟨msg, rfl⟩ := marshalCollections_error_shape _ _ _ (he ▸ hmc)
    simp
  | ok ys =>
    rw [hmc] at he
    cases hmr : marshalRules mR (chronoFold slos).2 with
    | error e3 =>
      rw [hmr] at he
      simp at he
      obtain ⟨msg, rfl⟩ := marshalRules_error_shape _ _ _ (he ▸ hmr)
      simp
    | ok ys2 => rw [hmr] at he; simp at he

/-- C2 (amended): on a non-empty input in which every unit's three rule
sequences are empty, the Prometheus flavor returns the no-rules sentinel
without writing, but the Chronosphere flavor does not return the sentinel
(a Collection is created for every unit regardless of its rules, so the
collection map is non-empty and the renderer proceeds to emit
collections-only output, writing to the sink when marshalling and the sink
succeed). -/
theorem empty_rules_sentinel
    (marshalG : List ruleGroupYAMLv2 → Except String String)
    (marshalC : chronosphereCollectionYAML → Except String String)
    (marshalR : chronosphereRuleYAML → Except String String)
    (iter : List (String × chronosphereCollection) → List chronosphereCollection)
    (sink : String → Except String Unit) (version : String)
    (slos : List StorageSLO) (hne : slos ≠ [])
    (hempty : ∀ slo ∈ slos, slo.Rules.SLIErrorRecRules = []
      ∧ slo.Rules.MetadataRecRules = [] ∧ slo.Rules.AlertRules = []) :
    StoreSLOs marshalG marshalC marshalR iter sink version slos PrometheusFlavor
      = (Except.error StoreErr.noSLORules, [])
    ∧ (∀ e, rawChronosphereYAML marshalC marshalR iter slos = Except.error e →
        e ≠ StoreErr.noSLORules) := by
  constructor
  · have hgroups : (rawPrometheusGroups slos).length = 0 := by
      rw [rawPrometheusGroups_length]
      apply List.sum_eq_zero
      intro x hx
      obtain ⟨slo, hslo, rfl⟩ := List.mem_map.mp hx
      obtain ⟨h1, h2, h3⟩ := hempty slo hslo
      simp [nonEmptyKindCount, h1, h2, h3]
    have hraw : rawPrometheusYAML marshalG slos = Except.error StoreErr.noSLORules := by
      simp only [rawPrometheusYAML]
      rw [if_pos hgroups]
    unfold StoreSLOs renderFlavor
    rw [if_neg (by simpa [List.length_eq_zero] using hne), if_pos rfl, hraw]
  · intro e he
    exact rawChronosphereYAML_no_sentinel marshalC marshalR iter slos hne e he

/-- Witness for C2 (amended) at the all-empty demo input. -/
theorem empty_rules_sentinel_witness :
    StoreSLOs stubMarshalG stubMarshalC stubMarshalR valuesIter okSink "dev"
      [emptyRulesSLO] PrometheusFlavor = (Except.error StoreErr.noSLORules, [])
    ∧ (∀ e, rawChronosphereYAML stubMarshalC stubMarshalR valuesIter [emptyRulesSLO]
        = Except.error e → e ≠ StoreErr.noSLORules) :=
  empty_rules_sentinel stubMarshalG stubMarshalC stubMarshalR valuesIter okSink
    "dev" [emptyRulesSLO] (by decide) (by decide)

/-! ## C9: the disclaimer block -/

/-- C9 counterexample: on a concrete successful call the single written
buffer equals the disclaimer constant followed by the payload, and its bytes
admit no decomposition `banner ++ marker ++ payload` with a document
boundary marker (`---`, `---` plus newline, or newline-wrapped `---`)
immediately before the payload: in the code the marker precedes the banner
text instead of following it. -/
theorem disclaimer_marker_precedes_banner :
    ((StoreSLOs stubMarshalG stubMarshalC stubMarshalR valuesIter okSink "dev"
        [demoSLO] PrometheusFlavor).2 = [disclaimer "dev" ++ "groups:1\n"])
    ∧ ¬ (("---" ++ "groups:1\n").data
        <:+ (disclaimer "dev" ++ "groups:1\n").data)
    ∧ ¬ (("---\n" ++ "groups:1\n").data
        <:+ (disclaimer "dev" ++ "groups:1\n").data)
    ∧ ¬ (("\n---\n" ++ "groups:1\n").data
        <:+ (disclaimer "dev" ++ "groups:1\n").data) := by
  exact ⟨by decide, by decide, by decide, by decide⟩

/-- C9 (amended): every successful call's output bytes are the fixed
disclaimer block followed directly by the rendered payload, by pure byte
concatenation with no re-parsing; the block consists of a leading newline,
the `---` document-boundary marker, the generated-by line with the tool name
and version, the DO-NOT-EDIT notice and a blank line — so the boundary
marker precedes the banner text rather than standing between the banner and
the payload. -/
theorem storeSLOs_disclaimer_prefix
    (marshalG : List ruleGroupYAMLv2 → Except String String)
    (marshalC : chronosphereCollectionYAML → Except String String)
    (marshalR : chronosphereRuleYAML → Except String String)
    (iter : List (String × chronosphereCollection) → List chronosphereCollection)
    (sink : String → Except String Unit) (version : String)
    (slos : List StorageSLO) (flavor : OutputFlavor) (n : Nat) (y : String)
    (hr : renderFlavor marshalG marshalC marshalR iter slos flavor = Except.ok (n, y))
    (hne : ¬ slos.length = 0) :
    (StoreSLOs marshalG marshalC marshalR iter sink version slos flavor).2
      = [disclaimer version ++ y]
    ∧ disclaimer version
      = "\n---\n# Code generated by Sloth (" ++ version
          ++ "): https://github.com/slok/sloth.\n# DO NOT EDIT.\n\n" := by
  constructor
  · unfold StoreSLOs
    rw [if_neg hne, hr]
    simp only [writeTopDisclaimer]
    cases hs : sink (disclaimer version ++ y) <;> simp [hs]
  · rfl

/-- Witness for C9 (amended) at the demo input under the Prometheus flavor. -/
theorem storeSLOs_disclaimer_prefix_witness :
    (StoreSLOs stubMarshalG stubMarshalC stubMarshalR valuesIter okSink "dev"
        [demoSLO] PrometheusFlavor).2 = [disclaimer "dev" ++ "groups:1\n"]
    ∧ disclaimer "dev"
      = "\n---\n# Code generated by Sloth (" ++ "dev"
          ++ "): https://github.com/slok/sloth.\n# DO NOT EDIT.\n\n" :=
  storeSLOs_disclaimer_prefix stubMarshalG stubMarshalC stubMarshalR valuesIter
    okSink "dev" [demoSLO] PrometheusFlavor 1 "groups:1\n" (by decide) (by decide)

/-! ## C4: Collection emission order -/

/-- Two units with distinct service names. -/
def twoServiceSlos : List StorageSLO :=
  [{ SLO := { ID := "a1", Service := "svca" }
     Rules := { SLIErrorRecRules := [demoRule] } },
   { SLO := { ID := "b1", Service := "svcb" }
     Rules := { SLIErrorRecRules := [demoRule] } }]

/-- C4: the Chronosphere renderer's output depends on the iteration order of
the collections map — on a two-service input, two iteration orders that are
both permutations of the stored collections (Go's randomised map iteration
may produce either) yield different output bytes, so two invocations on
equal input need not be byte-identical. -/
theorem chronosphere_output_order_dependent :
    (valuesIter (chronoFold twoServiceSlos).1).Perm
      (reverseIter (chronoFold twoServiceSlos).1)
    ∧ rawChronosphereYAML stubMarshalC stubMarshalR valuesIter twoServiceSlos
        ≠ rawChronosphereYAML stubMarshalC stubMarshalR reverseIter twoServiceSlos := by
  exact ⟨(List.reverse_perm _).symm, by decide⟩

end Sloth
